import Mathlib

/-!
Verification development for the Multi-Agent-Law-Framework backend.

The definitions below are shallow embeddings of the Python source files
`backend/agents.py`, `backend/orchestrator.py` and `backend/server.py`.
Pure string manipulation is modelled on `List Char`; Python dictionaries
produced by `json.loads` (and the plain result dictionaries built by the
fallback builders) are modelled by the inductive type `JVal`; fallible
Python operations are modelled with `Option` / `Except`.

Modelling scope notes:
* `str.lower` / `str.strip` are modelled on ASCII characters (all strings
  appearing in the source and in the specification are ASCII).
* `json.loads` is modelled by a fuel-indexed recursive-descent parser
  (`parseStep`); the fuel `4 * length + 16` strictly exceeds the number of
  recursive calls possible on an input of that length (every call either
  consumes at least one input character before the next call or is the
  single value-to-container transition that follows a consumed bracket),
  so the fueled parser never runs out of fuel on its argument.
* `\uXXXX` escapes denoting surrogate halves decode to the default
  character, where CPython would keep a lone surrogate; no claim depends
  on such inputs.
-/

set_option maxRecDepth 10000

/-! ### Character and list utilities -/

/-- ASCII lower-casing of one character (models `str.lower` on the ASCII
range, which covers every string the source manipulates). -/
def lowerChar (c : Char) : Char :=
  if 65 ≤ c.toNat && c.toNat ≤ 90 then Char.ofNat (c.toNat + 32) else c

/-- Lower-case a character list (models `text.lower()`). -/
def lowerChars (l : List Char) : List Char := l.map lowerChar

/-- JSON whitespace characters (the set skipped by `json.loads`). -/
def isWsChar (c : Char) : Bool := c == ' ' || c == '\t' || c == '\n' || c == '\r'

/-- Skip leading JSON whitespace. -/
def skipWs (l : List Char) : List Char := l.dropWhile isWsChar

/-- Python `str.strip()` whitespace (ASCII part). -/
def isPySpace (c : Char) : Bool :=
  c == ' ' || c == '\t' || c == '\n' || c == '\r' || c.toNat == 11 || c.toNat == 12

/-- Models Python `s.strip()`. -/
def pyStrip (s : String) : String :=
  String.mk (((s.data.dropWhile isPySpace).reverse.dropWhile isPySpace).reverse)

/-- Does `l` start with the pattern `pat`? -/
def startsWithL (pat l : List Char) : Bool :=
  match pat, l with
  | [], _ => true
  | _ :: _, [] => false
  | a :: as, b :: bs => a == b && startsWithL as bs

/-- Substring containment on character lists: models the Python test
`needle in haystack` for strings. -/
def containsSub (needle : List Char) : List Char → Bool
  | [] => startsWithL needle []
  | l@(_ :: rest) => startsWithL needle l || containsSub needle rest

/-- Python list membership `x in l` for string lists. -/
def memB (l : List String) (x : String) : Bool :=
  match l with
  | [] => false
  | a :: r => a == x || memB r x

/-- Models the Python expression `join(parts)` with a double-newline
separator. -/
def joinNN : List String → String
  | [] => ""
  | [s] => s
  | s :: t :: rest => s ++ "\n\n" ++ joinNN (t :: rest)

/-! ### JSON values (the shape of `json.loads` results and of the plain
dictionaries built by the fallback builders) -/

/-- A parsed JSON value.  Numbers keep their source lexeme (no claim
depends on numeric evaluation beyond the lexeme). -/
inductive JVal where
  | null
  | bool (b : Bool)
  | num (lexeme : String)
  | str (s : String)
  | arr (elems : List JVal)
  | obj (members : List (String × JVal))

/-- Python `key in value` for a parsed JSON value: key membership for
dicts, element equality for lists (a string only equals a string),
substring test for strings, and `TypeError` (`none`) otherwise. -/
def pyIn (key : String) : JVal → Option Bool
  | JVal.obj kvs => some (kvs.any (fun kv => kv.1 == key))
  | JVal.arr xs =>
      some (xs.any (fun j => match j with
        | JVal.str s => s == key
        | _ => false))
  | JVal.str s => some (containsSub key.data s.data)
  | _ => none

/-- Is the value a JSON object (a Python dict)? -/
def isObjB : JVal → Bool
  | JVal.obj _ => true
  | _ => false

/-- Does the value carry `k` as an actual dictionary key? -/
def objKeyB (j : JVal) (k : String) : Bool :=
  match j with
  | JVal.obj kvs => kvs.any (fun kv => kv.1 == k)
  | _ => false

/-- First-occurrence key lookup in a JSON object. -/
def jsonLookup (j : JVal) (k : String) : Option JVal :=
  match j with
  | JVal.obj kvs => (kvs.find? (fun kv => kv.1 == k)).map Prod.snd
  | _ => none

/-! ### The `json.loads` model: a fuel-indexed recursive-descent parser -/

/-- Hex digit test. -/
def isHexD (c : Char) : Bool :=
  c.isDigit || ('a' ≤ c && c ≤ 'f') || ('A' ≤ c && c ≤ 'F')

/-- Value of a hex digit (0 for non-digits; always guarded by `isHexD`). -/
def hexDigitVal (c : Char) : Nat :=
  if c.isDigit then c.toNat - 48
  else if 'a' ≤ c && c ≤ 'f' then c.toNat - 87
  else if 'A' ≤ c && c ≤ 'F' then c.toNat - 55
  else 0

/-- Decode a JSON string body (the part after the opening quote),
returning the decoded characters and the input remaining after the
closing quote.  Mirrors the strict-mode CPython scanner: invalid escapes
and unescaped control characters fail. -/
def parseStrBody : List Char → Option (List Char × List Char)
  | [] => none
  | '"' :: rest => some ([], rest)
  | '\\' :: '"' :: rest => (parseStrBody rest).map (fun p => ('"' :: p.1, p.2))
  | '\\' :: '\\' :: rest => (parseStrBody rest).map (fun p => ('\\' :: p.1, p.2))
  | '\\' :: '/' :: rest => (parseStrBody rest).map (fun p => ('/' :: p.1, p.2))
  | '\\' :: 'b' :: rest => (parseStrBody rest).map (fun p => (Char.ofNat 8 :: p.1, p.2))
  | '\\' :: 'f' :: rest => (parseStrBody rest).map (fun p => (Char.ofNat 12 :: p.1, p.2))
  | '\\' :: 'n' :: rest => (parseStrBody rest).map (fun p => ('\n' :: p.1, p.2))
  | '\\' :: 'r' :: rest => (parseStrBody rest).map (fun p => ('\r' :: p.1, p.2))
  | '\\' :: 't' :: rest => (parseStrBody rest).map (fun p => ('\t' :: p.1, p.2))
  | '\\' :: 'u' :: a :: b :: c :: d :: rest =>
      if isHexD a && isHexD b && isHexD c && isHexD d then
        let n := hexDigitVal a * 4096 + hexDigitVal b * 256 + hexDigitVal c * 16 + hexDigitVal d
        (parseStrBody rest).map (fun p => (Char.ofNat n :: p.1, p.2))
      else none
  | '\\' :: _ => none
  | c :: rest =>
      if c.toNat < 32 then none
      else (parseStrBody rest).map (fun p => (c :: p.1, p.2))

/-- Take a maximal run of decimal digits. -/
def takeDigits : List Char → List Char × List Char
  | [] => ([], [])
  | c :: rest =>
      if c.isDigit then
        let p := takeDigits rest
        (c :: p.1, p.2)
      else ([], c :: rest)

/-- Integer part of a JSON number: `0` or a nonzero digit followed by
digits (leading zeros are not absorbed, as in the CPython number regex). -/
def parseIntPart : List Char → Option (List Char × List Char)
  | [] => none
  | '0' :: rest => some (['0'], rest)
  | c :: rest =>
      if c.isDigit then
        let p := takeDigits rest
        some (c :: p.1, p.2)
      else none

/-- Optional fractional part `.digits`; consumed only when complete. -/
def parseFrac (l : List Char) : List Char × List Char :=
  match l with
  | '.' :: rest =>
      match takeDigits rest with
      | ([], _) => ([], l)
      | (ds, r) => ('.' :: ds, r)
  | _ => ([], l)

/-- Optional exponent part `[eE][+-]?digits`; consumed only when complete. -/
def parseExpPart (l : List Char) : List Char × List Char :=
  match l with
  | [] => ([], l)
  | c :: rest =>
      if c == 'e' || c == 'E' then
        match rest with
        | [] => ([], l)
        | s :: rest2 =>
            if s == '+' || s == '-' then
              match takeDigits rest2 with
              | ([], _) => ([], l)
              | (ds, r) => (c :: s :: ds, r)
            else
              match takeDigits rest with
              | ([], _) => ([], l)
              | (ds, r) => (c :: ds, r)
      else ([], l)

/-- JSON number lexeme (the CPython `NUMBER_RE`). -/
def parseNumLex (l : List Char) : Option (List Char × List Char) :=
  match l with
  | '-' :: rest =>
      match parseIntPart rest with
      | none => none
      | some (ip, r1) =>
          let fr := parseFrac r1
          let ex := parseExpPart fr.2
          some ('-' :: (ip ++ fr.1 ++ ex.1), ex.2)
  | _ =>
      match parseIntPart l with
      | none => none
      | some (ip, r1) =>
          let fr := parseFrac r1
          let ex := parseExpPart fr.2
          some (ip ++ fr.1 ++ ex.1, ex.2)

/-- Parser mode: a plain value, or the element/member loop of a
partially parsed array/object. -/
inductive PMode where
  | val
  | arrItems (first : Bool) (acc : List JVal)
  | objItems (first : Bool) (acc : List (String × JVal))

/-- The value-position dispatch of the parser, with the object/array
continuations abstracted (`pObj`/`pArr` receive the characters after the
opening bracket). -/
def parseValBody (pObj pArr : List Char → Option (JVal × List Char)) :
    List Char → Option (JVal × List Char)
  | [] => none
  | '{' :: rest => pObj rest
  | '[' :: rest => pArr rest
  | '"' :: rest => (parseStrBody rest).map (fun p => (JVal.str (String.mk p.1), p.2))
  | 't' :: 'r' :: 'u' :: 'e' :: rest => some (JVal.bool true, rest)
  | 'f' :: 'a' :: 'l' :: 's' :: 'e' :: rest => some (JVal.bool false, rest)
  | 'n' :: 'u' :: 'l' :: 'l' :: rest => some (JVal.null, rest)
  | 'N' :: 'a' :: 'N' :: rest => some (JVal.num "NaN", rest)
  | 'I' :: 'n' :: 'f' :: 'i' :: 'n' :: 'i' :: 't' :: 'y' :: rest =>
      some (JVal.num "Infinity", rest)
  | '-' :: 'I' :: 'n' :: 'f' :: 'i' :: 'n' :: 'i' :: 't' :: 'y' :: rest =>
      some (JVal.num "-Infinity", rest)
  | l2 => (parseNumLex l2).map (fun p => (JVal.num (String.mk p.1), p.2))

/-- The array element loop, with the value parser and the loop
continuation abstracted. -/
def parseArrBody (pVal : List Char → Option (JVal × List Char))
    (pLoop : List JVal → List Char → Option (JVal × List Char))
    (first : Bool) (acc : List JVal) (l : List Char) : Option (JVal × List Char) :=
  match l, first with
  | ']' :: rest, true => some (JVal.arr acc, rest)
  | l2, _ =>
      match pVal l2 with
      | none => none
      | some (v, r) =>
          match skipWs r with
          | ',' :: r2 => pLoop (acc ++ [v]) (skipWs r2)
          | ']' :: r2 => some (JVal.arr (acc ++ [v]), r2)
          | _ => none

/-- The object member loop, with the value parser and the loop
continuation abstracted. -/
def parseObjBody (pVal : List Char → Option (JVal × List Char))
    (pLoop : List (String × JVal) → List Char → Option (JVal × List Char))
    (first : Bool) (acc : List (String × JVal)) (l : List Char) :
    Option (JVal × List Char) :=
  match l, first with
  | '}' :: rest, true => some (JVal.obj acc, rest)
  | '"' :: rest, _ =>
      match parseStrBody rest with
      | none => none
      | some (kcs, r1) =>
          match skipWs r1 with
          | ':' :: r2 =>
              match pVal (skipWs r2) with
              | none => none
              | some (v, r3) =>
                  match skipWs r3 with
                  | ',' :: r4 => pLoop (acc ++ [(String.mk kcs, v)]) (skipWs r4)
                  | '}' :: r4 => some (JVal.obj (acc ++ [(String.mk kcs, v)]), r4)
                  | _ => none
          | _ => none
  | _, _ => none

/-- One recursive-descent parser for JSON values, structurally recursive
on its fuel.  `PMode.val` expects a value with no leading whitespace;
the loop modes expect the input already whitespace-skipped. -/
def parseStep : Nat → PMode → List Char → Option (JVal × List Char)
  | 0, _, _ => none
  | f + 1, PMode.val, l =>
      parseValBody (fun rest => parseStep f (PMode.objItems true []) (skipWs rest))
        (fun rest => parseStep f (PMode.arrItems true []) (skipWs rest)) l
  | f + 1, PMode.arrItems first acc, l =>
      parseArrBody (parseStep f PMode.val)
        (fun acc2 l2 => parseStep f (PMode.arrItems false acc2) l2) first acc l
  | f + 1, PMode.objItems first acc, l =>
      parseObjBody (parseStep f PMode.val)
        (fun acc2 l2 => parseStep f (PMode.objItems false acc2) l2) first acc l

/-- Models `json.loads` applied to the characters `l`: parse one value
surrounded by optional whitespace, requiring full consumption. -/
def parseJsonChars (l : List Char) : Option JVal :=
  match parseStep (4 * l.length + 16) PMode.val (skipWs l) with
  | some (v, r) => if (skipWs r).isEmpty then some v else none
  | none => none

/-! ### The balanced-brace regex search
(the `re.search` over a brace-bounded pattern with one nesting level) -/

/-- Attempt the regex match from just after an opening brace, at brace
depth `d` (1 or 2); returns the matched characters up to and including
the closing brace, or fails when depth would exceed 2 (the regex allows
one level of nesting) or the input ends. -/
def tryMatchAux : List Char → Nat → Option (List Char)
  | [], _ => none
  | c :: rest, d =>
      if c == '}' then
        if d == 1 then some ['}']
        else (tryMatchAux rest 1).map (fun t => '}' :: t)
      else if c == '{' then
        if d == 1 then (tryMatchAux rest 2).map (fun t => '{' :: t)
        else none
      else (tryMatchAux rest d).map (fun t => c :: t)

/-- Leftmost regex match: try each position in order, as `re.search`
does, succeeding at the first opening brace from which the bounded-depth
balanced match completes. -/
def searchJson : List Char → Option (List Char)
  | [] => none
  | c :: rest =>
      if c == '{' then
        match tryMatchAux rest 1 with
        | some t => some ('{' :: t)
        | none => searchJson rest
      else searchJson rest

/-! ### `Judge.render_verdict` (agents.py lines 61-87) -/

/-- The candidate text handed to `json.loads`: the regex match when one
exists, otherwise the whole response text. -/
def parsedCandidate (text : String) : Option JVal :=
  match searchJson text.data with
  | some m => parseJsonChars m
  | none => parseJsonChars text.data

/-- The pass-through branch of `render_verdict`: the parsed value is
returned untouched exactly when the Python conjunction of the two
membership tests (verdict and confidence) evaluates to `True`
(a raised `TypeError`, modelled by `none`, falls to the fallback just
like a `False`). -/
def passThrough (text : String) : Option JVal :=
  match parsedCandidate text with
  | some v =>
      if pyIn "verdict" v = some true ∧ pyIn "confidence" v = some true then some v
      else none
  | none => none

/-- The deterministic fallback verdict built from the raw text
(agents.py lines 79-87). -/
def verdictFallback (text : String) : JVal :=
  JVal.obj
    [("verdict",
      JVal.str (if containsSub "plaintiff".data (lowerChars text.data)
                then "FAVOR_PLAINTIFF" else "FAVOR_DEFENDANT")),
     ("confidence", JVal.num "75"),
     ("reasoning", JVal.arr [JVal.str (String.mk (text.data.take 200))]),
     ("supporting_evidence", JVal.arr [JVal.str "Evidence from case facts"])]

/-- Models `Judge.render_verdict` applied to the raw judge response text:
parse-or-fallback. -/
def render_verdict_extract (text : String) : JVal :=
  match passThrough text with
  | some v => v
  | none => verdictFallback text

/-! ### `Auditor._simple_bias_detection` and `Auditor.audit_case`
(agents.py lines 94-149) -/

/-- The four fixed bias lexicons, in source (insertion) order. -/
def bias_keywords : List (String × List String) :=
  [("gender", ["he", "she", "his", "her", "man", "woman", "male", "female"]),
   ("regional", ["north", "south", "rural", "urban", "village"]),
   ("religious", ["hindu", "muslim", "christian", "sikh"]),
   ("caste", ["caste", "scheduled", "tribe", "backward"])]

/-- One keyword step of the scan, restricted to the `found_biases`
accumulator: append the keyword when it occurs in the lower-cased text
and is not yet recorded. -/
def kwStep (tl : List Char) (acc : List String) (kw : String) : List String :=
  if containsSub kw.data tl then
    (if memB acc kw then acc else acc ++ [kw])
  else acc

/-- One keyword step of the scan on the `(found_biases, bias_types)`
pair, as the inner loop body of the source performs it. -/
def pairStep (tl : List Char) (cname : String)
    (st : List String × List String) (kw : String) : List String × List String :=
  if containsSub kw.data tl then
    ((if memB st.1 kw then st.1 else st.1 ++ [kw]),
     (if memB st.2 cname then st.2 else st.2 ++ [cname]))
  else st

/-- The inner `for keyword in keywords` loop over one category. -/
def catStep (tl : List Char) (st : List String × List String)
    (cat : String × List String) : List String × List String :=
  cat.2.foldl (pairStep tl cat.1) st

/-- The full double loop of `_simple_bias_detection`, producing
`(found_biases, bias_types)`. -/
def biasScan (text : String) : List String × List String :=
  bias_keywords.foldl (catStep (lowerChars text.data)) ([], [])

/-- The `found_biases` list after the scan. -/
def foundBiases (text : String) : List String := (biasScan text).1

/-- The `bias_types` list after the scan. -/
def biasTypes (text : String) : List String := (biasScan text).2

/-- Computes `fairness_score = max(50, 100 - (len(found_biases) * 5))`. -/
def fairnessScore (text : String) : Int :=
  max 50 (100 - (Int.ofNat (foundBiases text).length) * 5)

/-- All lexicon keywords in scan order. -/
def allKeywords : List String := (bias_keywords.map Prod.snd).flatten

/-- The set of distinct lexicon keywords occurring (as substrings) in
the lower-cased text, in scan order. -/
def matchedKeywords (text : String) : List String :=
  allKeywords.filter (fun kw => containsSub kw.data (lowerChars text.data))

/-- The dictionary returned by `_simple_bias_detection`. -/
def simple_bias_detection (text : String) : JVal :=
  JVal.obj
    [("fairness_score", JVal.num (toString (fairnessScore text))),
     ("biased_terms", JVal.arr (((foundBiases text).take 10).map JVal.str)),
     ("bias_types", JVal.arr ((biasTypes text).map JVal.str)),
     ("recommendations", JVal.arr
       [JVal.str "Use gender-neutral language where possible",
        JVal.str "Avoid stereotypical assumptions",
        JVal.str "Focus on facts and legal precedents"]),
     ("summary", JVal.str ("Found " ++ toString (foundBiases text).length ++
       " potentially biased terms. Fairness score: " ++
       toString (fairnessScore text) ++ "/100"))]

/-- The `case_text` assembled by `audit_case` from the audit context:
`f"(facts) (verdict) (reasoning)"` space-joined. -/
def auditCaseText (facts verdict reasoning : String) : String :=
  facts ++ " " ++ verdict ++ " " ++ reasoning

/-- The audit-side pass-through branch (required key `fairness_score`). -/
def auditPassThrough (text : String) : Option JVal :=
  match parsedCandidate text with
  | some v => if pyIn "fairness_score" v = some true then some v else none
  | none => none

/-- Models `Auditor.audit_case` applied to the raw auditor response text and
the three context fields: parse-or-fallback with the keyword scan as
fallback builder. -/
def audit_case_extract (text facts verdict reasoning : String) : JVal :=
  match auditPassThrough text with
  | some v => v
  | none => simple_bias_detection (auditCaseText facts verdict reasoning)

/-! ### `LegalAgent.generate_response` (agents.py lines 28-44)

`self.prompt_template.format(**context)` runs before the `try` block, so
a template-rendering error propagates; any exception of the model call
is caught and turned into an error text.  `str.format` is modelled at the
raise/return level: the template is parsed into literal/placeholder
segments (brace escapes included) and rendered against the context; the
model returns `none` exactly when the CPython `format` raises (a missing
placeholder key or a malformed template). -/

/-- One parsed template segment. -/
inductive TSeg where
  | lit (c : Char)
  | ph (name : String)

/-- Read a placeholder name up to the closing brace. -/
def readName : List Char → Option (List Char × List Char)
  | [] => none
  | '}' :: rest => some ([], rest)
  | '{' :: _ => none
  | c :: rest => (readName rest).map (fun p => (c :: p.1, p.2))

/-- Fueled template scanner (each step consumes at least one character,
so fuel `length + 1` always suffices). -/
def parseTemplateF : Nat → List Char → Option (List TSeg)
  | 0, _ => none
  | _ + 1, [] => some []
  | f + 1, '{' :: '{' :: rest => (parseTemplateF f rest).map (fun segs => TSeg.lit '{' :: segs)
  | f + 1, '}' :: '}' :: rest => (parseTemplateF f rest).map (fun segs => TSeg.lit '}' :: segs)
  | f + 1, '{' :: rest =>
      match readName rest with
      | some (nm, r) => (parseTemplateF f r).map (fun segs => TSeg.ph (String.mk nm) :: segs)
      | none => none
  | _ + 1, '}' :: _ => none
  | f + 1, c :: rest => (parseTemplateF f rest).map (fun segs => TSeg.lit c :: segs)

/-- Parse a whole template into segments; `none` models a template on
which `str.format` raises regardless of the context. -/
def parseTemplate (l : List Char) : Option (List TSeg) :=
  parseTemplateF (l.length + 1) l

/-- Placeholder names of a segment list, in order. -/
def segNames : List TSeg → List String
  | [] => []
  | TSeg.lit _ :: r => segNames r
  | TSeg.ph n :: r => n :: segNames r

/-- Python dict lookup on the context (modelled as an association list
with distinct keys). -/
def lookupCtx (ctx : List (String × String)) (k : String) : Option String :=
  match ctx with
  | [] => none
  | (a, b) :: r => if a == k then some b else lookupCtx r k

/-- Render parsed segments against a context; `none` models the
`KeyError` raised for a missing placeholder key. -/
def renderSegs (ctx : List (String × String)) : List TSeg → Option (List Char)
  | [] => some []
  | TSeg.lit c :: rest => (renderSegs ctx rest).map (fun l => c :: l)
  | TSeg.ph n :: rest =>
      match lookupCtx ctx n with
      | none => none
      | some v => (renderSegs ctx rest).map (fun l => v.data ++ l)

/-- Models `template.format(**context)` at the raise/return level. -/
def renderTemplate (template : List Char) (ctx : List (String × String)) :
    Option (List Char) :=
  match parseTemplate template with
  | some segs => renderSegs ctx segs
  | none => none

/-- Outcome of the external model call (`ModelInvocationError` carries
the Python `str(e)` text). -/
inductive CallResult where
  | ok (text : String)
  | failed (msg : String)

/-- Models the underscore-to-space replace on the agent type. -/
def underscoresToSpaces (s : String) : String :=
  String.mk (s.data.map (fun c => if c == '_' then ' ' else c))

/-- The role-flavored system instruction. -/
def systemMsg (agent_type : String) : String :=
  "You are a " ++ underscoresToSpaces agent_type ++ " in an Indian courtroom."

/-- Models `LegalAgent.generate_response`: `none` models the exception that
propagates out of template rendering; once rendering succeeds the result
is always `some` — a model failure degrades to an error text. -/
def generate_response (agent_type : String) (template : List Char)
    (ctx : List (String × String)) (model : String → String → CallResult) :
    Option String :=
  match renderTemplate template ctx with
  | none => none
  | some prompt =>
      some (match model (systemMsg agent_type) (String.mk prompt) with
        | CallResult.ok t => pyStrip t
        | CallResult.failed e => "Error generating response: " ++ e)

/-! ### `DebateOrchestrator.run_simulation` (orchestrator.py lines 14-76)

The three agents are modelled as oracles giving the raw text of each
call: the lawyer oracles take the round number (two calls with identical
context may answer differently) and the context the call receives; the
judge oracle takes its context.  Degraded error strings are just values
of these oracles. -/

/-- One transcript entry. -/
structure TEntry where
  round : Nat
  speaker : String
  argument : String

/-- The processed case fields used by the orchestrator. -/
structure CaseData where
  facts : String
  issues : String
  holding : String

/-- The per-turn context built afresh each round: exactly
`facts`, `issues`, `holding`. -/
def caseCtx (cd : CaseData) : List (String × String) :=
  [("facts", cd.facts), ("issues", cd.issues), ("holding", cd.holding)]

/-- The debate loop: rounds `1..n` in order, plaintiff then defendant
inside each round, both turns receiving `caseCtx cd`. -/
def debateLoop (pA dA : Nat → List (String × String) → String) (cd : CaseData) :
    Nat → List TEntry
  | 0 => []
  | n + 1 =>
      debateLoop pA dA cd n ++
        [{ round := n + 1, speaker := "Plaintiff Lawyer",
           argument := pA (n + 1) (caseCtx cd) },
         { round := n + 1, speaker := "Defendant Lawyer",
           argument := dA (n + 1) (caseCtx cd) }]

/-- Double-newline join of the arguments of one speaker in transcript
order. -/
def argsOf (speaker : String) (transcript : List TEntry) : String :=
  joinNN ((transcript.filter (fun t => t.speaker == speaker)).map TEntry.argument)

/-- The judge context: the three case fields plus both argument
concatenations. -/
def judgeCtx (cd : CaseData) (pArgs dArgs : String) : List (String × String) :=
  caseCtx cd ++ [("plaintiff_arguments", pArgs), ("defendant_arguments", dArgs)]

/-- The value returned by `run_simulation`. -/
structure SimulationResult where
  debate_transcript : List TEntry
  verdict : JVal
  rounds_completed : Nat

/-- Models `DebateOrchestrator.run_simulation`. -/
def run_simulation (cd : CaseData) (rounds : Nat)
    (pA dA : Nat → List (String × String) → String)
    (jA : List (String × String) → String) : SimulationResult :=
  let transcript := debateLoop pA dA cd rounds
  let pArgs := argsOf "Plaintiff Lawyer" transcript
  let dArgs := argsOf "Defendant Lawyer" transcript
  { debate_transcript := transcript,
    verdict := render_verdict_extract (jA (judgeCtx cd pArgs dArgs)),
    rounds_completed := rounds }

/-! ### The `/simulate` and `/audit` endpoint handlers
(server.py lines 167-222)

The Python handlers wrap their whole body in
`try ... except FileNotFoundError ... except Exception as e`, raising
`HTTPException(404)` for the former and `HTTPException(500, f"... (str(e))")`
for the latter.  Crucially, the `HTTPException(400, ...)` raised for a
failed precondition is itself an `Exception` raised inside the `try`,
so it is caught by the second handler and re-wrapped as a 500. -/

/-- The exceptions that can escape the handler bodies. -/
inductive PyExc where
  | fileNotFound (msg : String)
  | httpExc (status : Nat) (detail : String)
  | otherExc (msg : String)

/-- Python `str(e)` for these exceptions (`starlette.HTTPException.__str__`
is `f"(status_code): (detail)"`; `str(KeyError(k))` is `repr(k)`). -/
def pyStrExc : PyExc → String
  | PyExc.fileNotFound m => m
  | PyExc.httpExc s d => toString s ++ ": " ++ d
  | PyExc.otherExc m => m

/-- The outward result of a handler: an HTTP success payload or an
`HTTPException` with a status code and detail. -/
inductive ApiOutcome (α : Type) where
  | success (val : α)
  | failure (status : Nat) (detail : String)

/-- A stored case record as the simulate handler sees it: whether the
`facts` key is present, and the processed fields handed to the
orchestrator. -/
structure SimCaseRec where
  hasFacts : Bool
  data : CaseData

/-- The `try` body of the simulate endpoint: load, precondition check,
orchestration, store update (whose possible failure text is injected
through `updateErr`). -/
def simulate_try (lookup : Option SimCaseRec) (rounds : Nat)
    (pA dA : Nat → List (String × String) → String)
    (jA : List (String × String) → String) (updateErr : Option String) :
    Except PyExc SimulationResult :=
  match lookup with
  | none => Except.error (PyExc.fileNotFound "Case not found in store")
  | some rec =>
      if rec.hasFacts then
        let res := run_simulation rec.data rounds pA dA jA
        match updateErr with
        | some m => Except.error (PyExc.otherExc m)
        | none => Except.ok res
      else Except.error (PyExc.httpExc 400 "Case must be processed before simulation")

/-- The simulate endpoint with its two `except` clauses, in source
order. -/
def simulate_handler (lookup : Option SimCaseRec) (rounds : Nat)
    (pA dA : Nat → List (String × String) → String)
    (jA : List (String × String) → String) (updateErr : Option String) :
    ApiOutcome SimulationResult :=
  match simulate_try lookup rounds pA dA jA updateErr with
  | Except.ok r => ApiOutcome.success r
  | Except.error (PyExc.fileNotFound _) => ApiOutcome.failure 404 "Case not found"
  | Except.error e => ApiOutcome.failure 500 ("Error running simulation: " ++ pyStrExc e)

/-- A stored case record as the audit handler sees it: whether the
`simulation` key is present, and whether that simulation dict carries a
`verdict` key. -/
structure AuditCaseRec where
  hasSimulation : Bool
  simHasVerdict : Bool

/-- The `try` body of the audit endpoint: load, precondition check, then
the verdict lookup inside the simulation dict (a `KeyError` when
absent). -/
def audit_try (lookup : Option AuditCaseRec) : Except PyExc Unit :=
  match lookup with
  | none => Except.error (PyExc.fileNotFound "Case not found in store")
  | some rec =>
      if rec.hasSimulation then
        if rec.simHasVerdict then Except.ok ()
        else Except.error (PyExc.otherExc "\x27verdict\x27")
      else Except.error (PyExc.httpExc 400 "Simulation must be run before audit")

/-- The audit endpoint with its two `except` clauses, in source order. -/
def audit_handler (lookup : Option AuditCaseRec) : ApiOutcome Unit :=
  match audit_try lookup with
  | Except.ok r => ApiOutcome.success r
  | Except.error (PyExc.fileNotFound _) => ApiOutcome.failure 404 "Case not found"
  | Except.error e => ApiOutcome.failure 500 ("Error auditing case: " ++ pyStrExc e)

/-! ### Concrete inputs used by witness theorems -/

/-- A concrete processed case. -/
def cdEx : CaseData := { facts := "F", issues := "I", holding := "H" }

/-- A concrete plaintiff-lawyer oracle. -/
def pEx : Nat → List (String × String) → String :=
  fun n _ => "plaintiff argument " ++ toString n

/-- A concrete defendant-lawyer oracle. -/
def dEx : Nat → List (String × String) → String :=
  fun n _ => "defendant argument " ++ toString n

/-- A concrete judge oracle producing unstructured text. -/
def jEx : List (String × String) → String :=
  fun _ => "I believe the defendant acted properly throughout."

/-- A model call that always fails. -/
def modelFailEx : String → String → CallResult :=
  fun _ _ => CallResult.failed "model down"

/-- A concrete prompt template with one placeholder. -/
def tmplEx : String := "Facts: {facts}"

/-- A context carrying the placeholder of `tmplEx`. -/
def ctxEx : List (String × String) := [("facts", "Some facts")]

/-- The unstructured judge output of the specification scenario. -/
def c3text : String := "I believe the defendant acted properly throughout."

/-- The structured judge output of the specification scenario. -/
def c4text : String :=
  "The court finds in favor of the plaintiff. \x7b\"verdict\": \"FAVOR_PLAINTIFF\", \"confidence\": 88, \"reasoning\": [\"clear breach\"], \"supporting_evidence\": [\"contract clause 4\"]\x7d"

/-- The balanced-brace substring of `c4text`. -/
def c4match : String :=
  "\x7b\"verdict\": \"FAVOR_PLAINTIFF\", \"confidence\": 88, \"reasoning\": [\"clear breach\"], \"supporting_evidence\": [\"contract clause 4\"]\x7d"

/-- The parsed embedded object of `c4text`. -/
def c4obj : JVal :=
  JVal.obj
    [("verdict", JVal.str "FAVOR_PLAINTIFF"),
     ("confidence", JVal.num "88"),
     ("reasoning", JVal.arr [JVal.str "clear breach"]),
     ("supporting_evidence", JVal.arr [JVal.str "contract clause 4"])]

/-- A raw text with no braces whose whole-text parse is a JSON array that
passes the Python membership test. -/
def c2arrText : String := "[\"verdict\", \"confidence\"]"

/-- A raw judge text that is itself a complete verdict object. -/
def c2objText : String := "\x7b\"verdict\": \"FAVOR_PLAINTIFF\", \"confidence\": 90\x7d"

/-- A raw auditor text that is itself a complete audit object. -/
def c2auditText : String := "\x7b\"fairness_score\": 80\x7d"

/-- A text matching no bias keyword. -/
def c5zeroText : String := "zz"

/-- A text matching exactly ten distinct bias keywords. -/
def c5tenText : String := "he she his her man woman male female north south"

/-- The placeholder names of a template (empty for a malformed one). -/
def templatePlaceholders (template : List Char) : List String :=
  match parseTemplate template with
  | some segs => segNames segs
  | none => []

/-! ### Helper lemmas about the bias scan -/

/-- The test `memB` agrees with list membership. -/
lemma memB_iff (l : List String) (x : String) : memB l x = true ↔ x ∈ l := by
  induction l with
  | nil => simp [memB]
  | cons a r ih =>
    simp only [memB, Bool.or_eq_true, beq_iff_eq, ih, List.mem_cons]
    exact or_congr eq_comm Iff.rfl

/-- Folding the deduplicating keyword step over a duplicate-free list
disjoint from the accumulator appends exactly the matching keywords. -/
lemma foldl_kwStep_eq (tl : List Char) :
    ∀ (l : List String) (acc : List String), l.Nodup → (∀ x ∈ l, x ∉ acc) →
      l.foldl (kwStep tl) acc = acc ++ l.filter (fun kw => containsSub kw.data tl) := by
  intro l
  induction l with
  | nil => intro acc _ _; simp
  | cons kw rest ih =>
    intro acc hnd hdisj
    rcases List.nodup_cons.mp hnd with ⟨hkw, hrest⟩
    rw [List.foldl_cons]
    by_cases hc : containsSub kw.data tl = true
    · have hmem : memB acc kw = false := by
        cases h : memB acc kw
        · rfl
        · exact absurd ((memB_iff acc kw).mp h) (hdisj kw (List.mem_cons_self kw rest))
      have hstep : kwStep tl acc kw = acc ++ [kw] := by
        simp [kwStep, hc, hmem]
      rw [hstep, ih (acc ++ [kw]) hrest ?_]
      · simp [List.filter_cons, hc, List.append_assoc]
      · intro x hx
        simp only [List.mem_append, List.mem_singleton]
        rintro (hxa | hxkw)
        · exact hdisj x (List.mem_cons_of_mem kw hx) hxa
        · exact hkw (hxkw ▸ hx)
    · have hstep : kwStep tl acc kw = acc := by
        simp [kwStep, hc]
      rw [hstep, ih acc hrest (fun x hx => hdisj x (List.mem_cons_of_mem kw hx))]
      simp [List.filter_cons, hc]

/-- The first component of the pair fold over one lexicon equals the
keyword-only fold: the two accumulator components evolve independently. -/
lemma pairfold_fst (tl : List Char) (cname : String) :
    ∀ (l : List String) (st : List String × List String),
      (l.foldl (pairStep tl cname) st).1 = l.foldl (kwStep tl) st.1 := by
  intro l
  induction l with
  | nil => intro st; rfl
  | cons kw rest ih =>
    intro st
    rw [List.foldl_cons, List.foldl_cons, ih]
    congr 1
    by_cases hc : containsSub kw.data tl = true <;> simp [pairStep, kwStep, hc]

/-- The first component of the category fold equals the keyword fold
over the flattened lexicons. -/
lemma catfold_fst (tl : List Char) :
    ∀ (cats : List (String × List String)) (st : List String × List String),
      (cats.foldl (catStep tl) st).1 =
        ((cats.map Prod.snd).flatten).foldl (kwStep tl) st.1 := by
  intro cats
  induction cats with
  | nil => intro st; rfl
  | cons cat rest ih =>
    intro st
    rw [List.foldl_cons, ih]
    simp [catStep, List.foldl_append, pairfold_fst]

/-- The found-biases list of the source scan is exactly the filtered
keyword list. -/
lemma foundBiases_eq (text : String) : foundBiases text = matchedKeywords text := by
  unfold foundBiases biasScan matchedKeywords
  rw [catfold_fst]
  have h := foldl_kwStep_eq (lowerChars text.data) allKeywords [] (by decide) (by simp)
  simpa [allKeywords] using h

/-! ### Helper lemmas about template rendering -/

/-- Rendering fails exactly when some placeholder name has no binding in
the context. -/
lemma renderSegs_eq_none_iff (ctx : List (String × String)) :
    ∀ segs : List TSeg,
      renderSegs ctx segs = none ↔ ∃ n ∈ segNames segs, lookupCtx ctx n = none := by
  intro segs
  induction segs with
  | nil => simp [renderSegs, segNames]
  | cons s rest ih =>
    cases s with
    | lit c =>
      simpa [renderSegs, segNames, Option.map_eq_none'] using ih
    | ph n =>
      cases h : lookupCtx ctx n with
      | none =>
        simp only [renderSegs, h, segNames]
        exact iff_of_true (by trivial) ⟨n, List.mem_cons_self n _, h⟩
      | some v =>
        simp only [renderSegs, h, segNames, Option.map_eq_none', ih]
        constructor
        · rintro ⟨m, hm, hlk⟩
          exact ⟨m, List.mem_cons_of_mem n hm, hlk⟩
        · rintro ⟨m, hm, hlk⟩
          rcases List.mem_cons.mp hm with rfl | hm2
          · rw [h] at hlk; cases hlk
          · exact ⟨m, hm2, hlk⟩

/-! ### Helper lemmas about the regex search and the parser -/

/-- A successful regex search yields a match starting with an opening
brace. -/
lemma searchJson_head :
    ∀ (l m : List Char), searchJson l = some m → ∃ t, m = '{' :: t := by
  intro l
  induction l with
  | nil => intro m h; simp [searchJson] at h
  | cons c rest ih =>
    intro m h
    simp only [searchJson] at h
    split at h
    · split at h
      · cases h; exact ⟨_, rfl⟩
      · exact ih m h
    · exact ih m h

/-- A successful object-member-loop body yields an object value,
provided the loop continuation does. -/
lemma parseObjBody_shape
    (pVal : List Char → Option (JVal × List Char))
    (pLoop : List (String × JVal) → List Char → Option (JVal × List Char))
    (hLoop : ∀ acc2 l2 v2 r2, pLoop acc2 l2 = some (v2, r2) → ∃ kvs, v2 = JVal.obj kvs)
    (first : Bool) (acc : List (String × JVal)) (l : List Char) (v : JVal) (r : List Char)
    (h : parseObjBody pVal pLoop first acc l = some (v, r)) :
    ∃ kvs, v = JVal.obj kvs := by
  unfold parseObjBody at h
  split at h
  · cases h; exact ⟨_, rfl⟩
  · split at h
    · exact Option.noConfusion h
    · split at h
      · split at h
        · exact Option.noConfusion h
        · split at h
          · exact hLoop _ _ _ _ h
          · cases h; exact ⟨_, rfl⟩
          · exact Option.noConfusion h
      · exact Option.noConfusion h
  · exact Option.noConfusion h

/-- A successful object-member loop always returns an object value. -/
lemma parseStep_objItems :
    ∀ (f : Nat) (first : Bool) (acc : List (String × JVal))
      (l : List Char) (v : JVal) (r : List Char),
      parseStep f (PMode.objItems first acc) l = some (v, r) →
      ∃ kvs, v = JVal.obj kvs := by
  intro f
  induction f with
  | zero => intro first acc l v r h; exact Option.noConfusion h
  | succ f ih =>
    intro first acc l v r h
    have h2 : parseObjBody (parseStep f PMode.val)
        (fun acc2 l2 => parseStep f (PMode.objItems false acc2) l2)
        first acc l = some (v, r) := h
    exact parseObjBody_shape _ _
      (fun acc2 l2 v2 r2 hh => ih false acc2 l2 v2 r2 hh) first acc l v r h2

/-- A value parse starting at an opening brace always returns an object
value. -/
lemma parseVal_brace :
    ∀ (f : Nat) (t : List Char) (v : JVal) (r : List Char),
      parseStep f PMode.val ('{' :: t) = some (v, r) → ∃ kvs, v = JVal.obj kvs := by
  intro f t v r h
  cases f with
  | zero => exact Option.noConfusion h
  | succ f =>
    have h2 : parseStep f (PMode.objItems true []) (skipWs t) = some (v, r) := h
    exact parseStep_objItems f true [] _ v r h2

/-- A `json.loads` of a text starting with an opening brace, when it
succeeds, yields an object. -/
lemma parseJson_brace :
    ∀ (t : List Char) (v : JVal),
      parseJsonChars ('{' :: t) = some v → ∃ kvs, v = JVal.obj kvs := by
  intro t v h
  unfold parseJsonChars at h
  have hws : isWsChar '{' = false := by decide
  rw [show skipWs ('{' :: t) = '{' :: t by simp [skipWs, List.dropWhile_cons, hws]] at h
  cases hp : parseStep (4 * ('{' :: t).length + 16) PMode.val ('{' :: t) with
  | none => rw [hp] at h; exact Option.noConfusion h
  | some p =>
    obtain ⟨v2, r2⟩ := p
    rw [hp] at h
    have h2 : (if (skipWs r2).isEmpty = true then some v2 else none) = some v := h
    by_cases he : (skipWs r2).isEmpty = true
    · rw [if_pos he] at h2
      cases h2
      exact parseVal_brace _ t v r2 hp
    · rw [if_neg he] at h2; exact Option.noConfusion h2

/-! ### Helper lemmas about the verdict/audit extraction branches -/

/-- Inversion of the pass-through branch: a passed-through value
satisfied both membership tests and came from the parsed candidate. -/
lemma passThrough_some {text : String} {v : JVal} (h : passThrough text = some v) :
    parsedCandidate text = some v ∧
    pyIn "verdict" v = some true ∧ pyIn "confidence" v = some true := by
  unfold passThrough at h
  cases hp : parsedCandidate text with
  | none => rw [hp] at h; exact Option.noConfusion h
  | some w =>
    rw [hp] at h
    have h2 : (if pyIn "verdict" w = some true ∧ pyIn "confidence" w = some true
        then some w else none) = some v := h
    by_cases hc : pyIn "verdict" w = some true ∧ pyIn "confidence" w = some true
    · rw [if_pos hc] at h2
      cases h2
      exact ⟨rfl, hc⟩
    · rw [if_neg hc] at h2; exact Option.noConfusion h2

/-- Inversion of the audit pass-through branch. -/
lemma auditPassThrough_some {text : String} {v : JVal}
    (h : auditPassThrough text = some v) :
    parsedCandidate text = some v ∧ pyIn "fairness_score" v = some true := by
  unfold auditPassThrough at h
  cases hp : parsedCandidate text with
  | none => rw [hp] at h; exact Option.noConfusion h
  | some w =>
    rw [hp] at h
    have h2 : (if pyIn "fairness_score" w = some true then some w else none) = some v := h
    by_cases hc : pyIn "fairness_score" w = some true
    · rw [if_pos hc] at h2
      cases h2
      exact ⟨rfl, hc⟩
    · rw [if_neg hc] at h2; exact Option.noConfusion h2

/-! ### Helper lemmas about the debate loop -/

/-- The transcript of `n` rounds has `2 n` entries. -/
lemma debateLoop_length (pA dA : Nat → List (String × String) → String)
    (cd : CaseData) : ∀ n, (debateLoop pA dA cd n).length = 2 * n := by
  intro n
  induction n with
  | zero => rfl
  | succ n ih =>
    simp only [debateLoop, List.length_append, ih]
    simp
    omega

/-- The transcript entries at positions `2 i` and `2 i + 1` are the
round-`(i+1)` plaintiff and defendant turns, both invoked on the
plain case context. -/
lemma debateLoop_get (pA dA : Nat → List (String × String) → String)
    (cd : CaseData) :
    ∀ n i, i < n →
      (debateLoop pA dA cd n)[2 * i]? =
        some { round := i + 1, speaker := "Plaintiff Lawyer",
               argument := pA (i + 1) (caseCtx cd) } ∧
      (debateLoop pA dA cd n)[2 * i + 1]? =
        some { round := i + 1, speaker := "Defendant Lawyer",
               argument := dA (i + 1) (caseCtx cd) } := by
  intro n
  induction n with
  | zero => intro i h; omega
  | succ n ih =>
    intro i h
    have hlen : (debateLoop pA dA cd n).length = 2 * n := debateLoop_length pA dA cd n
    rcases Nat.lt_succ_iff_lt_or_eq.mp h with h' | h'
    · obtain ⟨h1, h2⟩ := ih i h'
      constructor
      · rw [debateLoop, List.getElem?_append_left (by omega), h1]
      · rw [debateLoop, List.getElem?_append_left (by omega), h2]
    · subst h'
      constructor
      · rw [debateLoop, List.getElem?_append_right (by omega)]
        simp [hlen]
      · rw [debateLoop, List.getElem?_append_right (by omega)]
        have : 2 * i + 1 - (debateLoop pA dA cd i).length = 1 := by omega
        rw [this]
        rfl

/-! ### Claim theorems -/

/-- C5: for every input text, the fallback bias scan computes
`fairness_score = max(50, 100 - 5 * n)` where `n` is the number of
distinct matched keywords; a text with no matched keyword scores 100 and
a text with at least ten distinct matched keywords scores 50. -/
theorem C5_fairness_formula (text : String) :
    foundBiases text = matchedKeywords text ∧
    (matchedKeywords text).Nodup ∧
    fairnessScore text = max 50 (100 - 5 * ((matchedKeywords text).length : Int)) ∧
    ((matchedKeywords text).length = 0 → fairnessScore text = 100) ∧
    (10 ≤ (matchedKeywords text).length → fairnessScore text = 50) := by
  have he := foundBiases_eq text
  refine ⟨he, List.Nodup.filter _ (by decide), ?_, ?_, ?_⟩
  · unfold fairnessScore
    rw [he, mul_comm, Int.ofNat_eq_natCast]
  · intro h0
    unfold fairnessScore
    rw [he, h0]
    decide
  · intro h10
    unfold fairnessScore
    rw [he, Int.ofNat_eq_natCast]
    refine max_eq_left ?_
    have : (10 : Int) ≤ ((matchedKeywords text).length : Int) := by exact_mod_cast h10
    omega

/-- Witness for C5 at concrete inputs: a keyword-free text scores 100
and a text matching ten distinct keywords scores 50. -/
theorem C5_fairness_formula_witness :
    fairnessScore c5zeroText = 100 ∧ fairnessScore c5tenText = 50 :=
  ⟨(C5_fairness_formula c5zeroText).2.2.2.1 (by decide),
   (C5_fairness_formula c5tenText).2.2.2.2 (by decide)⟩

/-- C6 counterexample: the scan on the input `historical` matches the
listed keyword `his` (substring containment), so it does not yield a
fairness score of 100 with empty bias types as the claim asserts. -/
theorem C6_counterexample :
    foundBiases "historical" = ["his"] ∧
    fairnessScore "historical" = 95 ∧
    biasTypes "historical" = ["gender"] ∧
    ¬(fairnessScore "historical" = 100 ∧ biasTypes "historical" = []) := by
  exact ⟨rfl, by decide, rfl, by decide⟩

/-- C6 amended: the scan decides each keyword by substring containment
in the lower-cased full input text; consequently the word `historical`
does contain the listed keyword `his`, and the scan on `historical`
matches exactly that keyword, yielding fairness score 95 and bias types
`[gender]`. -/
theorem C6_substring_semantics :
    (∀ text : String, foundBiases text =
      allKeywords.filter (fun kw => containsSub kw.data (lowerChars text.data))) ∧
    foundBiases "historical" = ["his"] ∧
    biasTypes "historical" = ["gender"] ∧
    fairnessScore "historical" = 95 := by
  exact ⟨fun text => foundBiases_eq text, rfl, rfl, by decide⟩

/-- C3: whenever the parse-or-validate step fails (no parseable
structured object, or a required key missing), the verdict fallback
returns FAVOR_PLAINTIFF exactly when the substring `plaintiff` occurs
case-insensitively in the raw text and FAVOR_DEFENDANT otherwise, with
confidence 75, the first 200 characters of the raw text as the single
reasoning entry, and the fixed placeholder evidence sequence. -/
theorem C3_fallback_verdict (text : String) (h : passThrough text = none) :
    render_verdict_extract text =
      JVal.obj
        [("verdict",
          JVal.str (if containsSub "plaintiff".data (lowerChars text.data)
                    then "FAVOR_PLAINTIFF" else "FAVOR_DEFENDANT")),
         ("confidence", JVal.num "75"),
         ("reasoning", JVal.arr [JVal.str (String.mk (text.data.take 200))]),
         ("supporting_evidence", JVal.arr [JVal.str "Evidence from case facts"])] := by
  unfold render_verdict_extract
  rw [h]
  rfl

/-- Witness for C3 at the specification scenario text, which contains
no structured object and no occurrence of `plaintiff`. -/
theorem C3_fallback_verdict_witness :
    render_verdict_extract c3text =
      JVal.obj
        [("verdict", JVal.str "FAVOR_DEFENDANT"),
         ("confidence", JVal.num "75"),
         ("reasoning", JVal.arr [JVal.str c3text]),
         ("supporting_evidence", JVal.arr [JVal.str "Evidence from case facts"])] := by
  rw [C3_fallback_verdict c3text rfl]
  rfl

/-- C4: when the first balanced-brace substring parses as a structured
object passing both membership tests, `render_verdict` returns that
parsed object unchanged, with no further validation. -/
theorem C4_passthrough (text : String) (m : List Char) (v : JVal)
    (h1 : searchJson text.data = some m) (h2 : parseJsonChars m = some v)
    (h3 : pyIn "verdict" v = some true) (h4 : pyIn "confidence" v = some true) :
    render_verdict_extract text = v := by
  have hc : parsedCandidate text = some v := by
    unfold parsedCandidate
    rw [h1]
    exact h2
  have hpt : passThrough text = some v := by
    unfold passThrough
    rw [hc]
    exact if_pos ⟨h3, h4⟩
  unfold render_verdict_extract
  rw [hpt]

/-- Witness for C4 at the specification scenario: the embedded object is
returned verbatim and its confidence is 88, not the 75 of the
fallback. -/
theorem C4_passthrough_witness :
    render_verdict_extract c4text = c4obj ∧
    jsonLookup c4obj "confidence" = some (JVal.num "88") :=
  ⟨C4_passthrough c4text c4match.data c4obj rfl rfl rfl rfl, rfl⟩

/-- Unfolding of the extraction when the pass-through branch fails. -/
lemma render_eq_of_none {text : String} (h : passThrough text = none) :
    render_verdict_extract text = verdictFallback text := by
  unfold render_verdict_extract
  rw [h]

/-- Unfolding of the extraction when the pass-through branch succeeds. -/
lemma render_eq_of_some {text : String} {v : JVal} (h : passThrough text = some v) :
    render_verdict_extract text = v := by
  unfold render_verdict_extract
  rw [h]

/-- Unfolding of the audit extraction when the pass-through fails. -/
lemma audit_eq_of_none {text facts verdict reasoning : String}
    (h : auditPassThrough text = none) :
    audit_case_extract text facts verdict reasoning =
      simple_bias_detection (auditCaseText facts verdict reasoning) := by
  unfold audit_case_extract
  rw [h]

/-- Unfolding of the audit extraction when the pass-through succeeds. -/
lemma audit_eq_of_some {text facts verdict reasoning : String} {v : JVal}
    (h : auditPassThrough text = some v) :
    audit_case_extract text facts verdict reasoning = v := by
  unfold audit_case_extract
  rw [h]

/-- C2 counterexample: on the raw text `["verdict", "confidence"]` — no
braces, so the whole text is parsed — the extraction returns the parsed
JSON array itself (Python list membership finds both key names as
elements), not an object carrying the required keys. -/
theorem C2_counterexample :
    render_verdict_extract c2arrText =
      JVal.arr [JVal.str "verdict", JVal.str "confidence"] ∧
    isObjB (render_verdict_extract c2arrText) = false ∧
    objKeyB (render_verdict_extract c2arrText) "confidence" = false :=
  ⟨rfl, rfl, rfl⟩

/-- C2 amended: extraction never fails and always returns a value in
which Python membership of every required key holds; that value is a
schema-complete object whenever a balanced-brace candidate exists (and
whenever the fallback runs), but the braceless whole-text parse may
return a non-object JSON value that passes the membership test. -/
theorem C2_extraction_robustness (vraw araw facts verdict reasoning : String) :
    pyIn "verdict" (render_verdict_extract vraw) = some true ∧
    pyIn "confidence" (render_verdict_extract vraw) = some true ∧
    (∀ m, searchJson vraw.data = some m →
      objKeyB (render_verdict_extract vraw) "verdict" = true ∧
      objKeyB (render_verdict_extract vraw) "confidence" = true) ∧
    pyIn "fairness_score" (audit_case_extract araw facts verdict reasoning) = some true ∧
    (∀ m, searchJson araw.data = some m →
      objKeyB (audit_case_extract araw facts verdict reasoning) "fairness_score" = true) := by
  refine ⟨?_, ?_, ?_, ?_, ?_⟩
  · cases hp : passThrough vraw with
    | none => rw [render_eq_of_none hp]; rfl
    | some v => rw [render_eq_of_some hp]; exact (passThrough_some hp).2.1
  · cases hp : passThrough vraw with
    | none => rw [render_eq_of_none hp]; rfl
    | some v => rw [render_eq_of_some hp]; exact (passThrough_some hp).2.2
  · intro m hm
    cases hp : passThrough vraw with
    | none => rw [render_eq_of_none hp]; exact ⟨rfl, rfl⟩
    | some v =>
      have h3 := passThrough_some hp
      have hpc : parseJsonChars m = some v := by
        have h1 := h3.1
        unfold parsedCandidate at h1
        rw [hm] at h1
        exact h1
      obtain ⟨t, hmt⟩ := searchJson_head vraw.data m hm
      subst hmt
      obtain ⟨kvs, hv⟩ := parseJson_brace t v hpc
      subst hv
      rw [render_eq_of_some hp]
      constructor
      · have h4 := h3.2.1
        simp only [pyIn, Option.some.injEq] at h4
        simpa [objKeyB] using h4
      · have h4 := h3.2.2
        simp only [pyIn, Option.some.injEq] at h4
        simpa [objKeyB] using h4
  · cases hp : auditPassThrough araw with
    | none => rw [audit_eq_of_none hp]; rfl
    | some v => rw [audit_eq_of_some hp]; exact (auditPassThrough_some hp).2
  · intro m hm
    cases hp : auditPassThrough araw with
    | none => rw [audit_eq_of_none hp]; rfl
    | some v =>
      have h3 := auditPassThrough_some hp
      have hpc : parseJsonChars m = some v := by
        have h1 := h3.1
        unfold parsedCandidate at h1
        rw [hm] at h1
        exact h1
      obtain ⟨t, hmt⟩ := searchJson_head araw.data m hm
      subst hmt
      obtain ⟨kvs, hv⟩ := parseJson_brace t v hpc
      subst hv
      rw [audit_eq_of_some hp]
      have h4 := h3.2
      simp only [pyIn, Option.some.injEq] at h4
      simpa [objKeyB] using h4

/-- Witness for C2 at concrete inputs with a balanced-brace candidate on
both the verdict and the audit side. -/
theorem C2_extraction_robustness_witness :
    objKeyB (render_verdict_extract c2objText) "verdict" = true ∧
    objKeyB (render_verdict_extract c2objText) "confidence" = true ∧
    objKeyB (audit_case_extract c2auditText "f" "v" "r") "fairness_score" = true ∧
    pyIn "confidence" (render_verdict_extract c2objText) = some true := by
  have h := C2_extraction_robustness c2objText c2auditText "f" "v" "r"
  obtain ⟨k1, k2⟩ := h.2.2.1 c2objText.data rfl
  exact ⟨k1, k2, h.2.2.2.2 c2auditText.data rfl, h.2.1⟩

/-- C1: for every round count and every sequence of agent outputs
(degraded error strings included), the simulation produces exactly `2R`
transcript entries, the entries of round `n` sitting at positions
`2n-2` and `2n-1` with speakers Plaintiff Lawyer then Defendant Lawyer
and round number `n`, together with exactly one verdict obtained from a
single judge extraction and `rounds_completed` equal to the configured
round count. -/
theorem C1_round_structure (cd : CaseData) (R : Nat) (_hR : 1 ≤ R)
    (pA dA : Nat → List (String × String) → String)
    (jA : List (String × String) → String) :
    (run_simulation cd R pA dA jA).debate_transcript.length = 2 * R ∧
    (run_simulation cd R pA dA jA).rounds_completed = R ∧
    (∀ n, 1 ≤ n → n ≤ R →
      (run_simulation cd R pA dA jA).debate_transcript[2 * n - 2]? =
        some { round := n, speaker := "Plaintiff Lawyer",
               argument := pA n (caseCtx cd) } ∧
      (run_simulation cd R pA dA jA).debate_transcript[2 * n - 1]? =
        some { round := n, speaker := "Defendant Lawyer",
               argument := dA n (caseCtx cd) }) ∧
    (run_simulation cd R pA dA jA).verdict =
      render_verdict_extract (jA (judgeCtx cd
        (argsOf "Plaintiff Lawyer" (run_simulation cd R pA dA jA).debate_transcript)
        (argsOf "Defendant Lawyer" (run_simulation cd R pA dA jA).debate_transcript))) := by
  refine ⟨debateLoop_length pA dA cd R, rfl, ?_, rfl⟩
  intro n h1 h2
  obtain ⟨hp, hd⟩ := debateLoop_get pA dA cd R (n - 1) (by omega)
  have e1 : 2 * (n - 1) = 2 * n - 2 := by omega
  have e2 : 2 * (n - 1) + 1 = 2 * n - 1 := by omega
  have e3 : n - 1 + 1 = n := by omega
  rw [e1, e3] at hp
  rw [e2, e3] at hd
  exact ⟨hp, hd⟩

/-- Witness for C1 at two rounds with concrete agents. -/
theorem C1_round_structure_witness :
    (run_simulation cdEx 2 pEx dEx jEx).debate_transcript.length = 4 ∧
    (run_simulation cdEx 2 pEx dEx jEx).rounds_completed = 2 ∧
    (run_simulation cdEx 2 pEx dEx jEx).debate_transcript[2]? =
      some { round := 2, speaker := "Plaintiff Lawyer",
             argument := pEx 2 (caseCtx cdEx) } := by
  obtain ⟨h1, h2, h3, _⟩ := C1_round_structure cdEx 2 (by decide) pEx dEx jEx
  exact ⟨h1, h2, (h3 2 (by decide) (by decide)).1⟩

/-- C9: both turns of every round receive the identical context holding
exactly the fields facts, issues and holding of the case data — never an
earlier-round or opponent argument — while the judge receives those
three fields plus `plaintiff_arguments` and `defendant_arguments`, each
the double-newline join of the transcript entries of that speaker in
transcript order. -/
theorem C9_context_isolation (cd : CaseData) (R : Nat)
    (pA dA : Nat → List (String × String) → String)
    (jA : List (String × String) → String) :
    (∀ n, 1 ≤ n → n ≤ R →
      (run_simulation cd R pA dA jA).debate_transcript[2 * n - 2]? =
        some { round := n, speaker := "Plaintiff Lawyer",
               argument := pA n [("facts", cd.facts), ("issues", cd.issues),
                                 ("holding", cd.holding)] } ∧
      (run_simulation cd R pA dA jA).debate_transcript[2 * n - 1]? =
        some { round := n, speaker := "Defendant Lawyer",
               argument := dA n [("facts", cd.facts), ("issues", cd.issues),
                                 ("holding", cd.holding)] }) ∧
    (run_simulation cd R pA dA jA).verdict =
      render_verdict_extract (jA
        ([("facts", cd.facts), ("issues", cd.issues), ("holding", cd.holding)] ++
         [("plaintiff_arguments",
           joinNN (((run_simulation cd R pA dA jA).debate_transcript.filter
             (fun t => t.speaker == "Plaintiff Lawyer")).map TEntry.argument)),
          ("defendant_arguments",
           joinNN (((run_simulation cd R pA dA jA).debate_transcript.filter
             (fun t => t.speaker == "Defendant Lawyer")).map TEntry.argument))])) := by
  constructor
  · intro n h1 h2
    obtain ⟨hp, hd⟩ := debateLoop_get pA dA cd R (n - 1) (by omega)
    have e1 : 2 * (n - 1) = 2 * n - 2 := by omega
    have e2 : 2 * (n - 1) + 1 = 2 * n - 1 := by omega
    have e3 : n - 1 + 1 = n := by omega
    rw [e1, e3] at hp
    rw [e2, e3] at hd
    exact ⟨hp, hd⟩
  · rfl

/-- Witness for C9 at one round with concrete agents. -/
theorem C9_context_isolation_witness :
    (run_simulation cdEx 1 pEx dEx jEx).debate_transcript[0]? =
      some { round := 1, speaker := "Plaintiff Lawyer",
             argument := pEx 1 [("facts", cdEx.facts), ("issues", cdEx.issues),
                                ("holding", cdEx.holding)] } :=
  ((C9_context_isolation cdEx 1 pEx dEx jEx).1 1 (by decide) (by decide)).1

/-- C10: with zero rounds the simulation is not rejected anywhere on the
simulate path: it returns an empty transcript, zero completed rounds,
and still performs exactly one judge extraction on empty argument
concatenations, and the endpoint handler accepts the request. -/
theorem C10_zero_rounds (cd : CaseData)
    (pA dA : Nat → List (String × String) → String)
    (jA : List (String × String) → String) :
    run_simulation cd 0 pA dA jA =
      { debate_transcript := [],
        verdict := render_verdict_extract (jA (judgeCtx cd "" "")),
        rounds_completed := 0 } ∧
    simulate_handler (some { hasFacts := true, data := cd }) 0 pA dA jA none =
      ApiOutcome.success (run_simulation cd 0 pA dA jA) :=
  ⟨rfl, rfl⟩

/-- C7: for a well-formed role template, agent invocation fails outward
exactly when the context is missing a placeholder named in the template
(the TemplateMismatch condition); once rendering succeeds the invocation
always returns text — any model-call failure is converted into the
returned text `Error generating response: ...`. -/
theorem C7_invocation_failure_boundary (agent_type : String) (template : List Char)
    (ctx : List (String × String)) (model : String → String → CallResult)
    (hwf : (parseTemplate template).isSome = true) :
    (generate_response agent_type template ctx model = none ↔
      ∃ n ∈ templatePlaceholders template, lookupCtx ctx n = none) ∧
    (∀ prompt, renderTemplate template ctx = some prompt →
      generate_response agent_type template ctx model =
        some (match model (systemMsg agent_type) (String.mk prompt) with
              | CallResult.ok t => pyStrip t
              | CallResult.failed e => "Error generating response: " ++ e)) := by
  obtain ⟨segs, hsegs⟩ := Option.isSome_iff_exists.mp hwf
  constructor
  · have hrt : renderTemplate template ctx = renderSegs ctx segs := by
      unfold renderTemplate
      rw [hsegs]
    have hph : templatePlaceholders template = segNames segs := by
      unfold templatePlaceholders
      rw [hsegs]
    rw [hph]
    unfold generate_response
    rw [hrt]
    cases hr : renderSegs ctx segs with
    | none =>
      exact iff_of_true rfl ((renderSegs_eq_none_iff ctx segs).mp hr)
    | some p =>
      refine iff_of_false (by simp) ?_
      intro hex
      have hnone := (renderSegs_eq_none_iff ctx segs).mpr hex
      rw [hnone] at hr
      exact Option.noConfusion hr
  · intro prompt hp
    unfold generate_response
    rw [hp]

/-- Witness for C7: with the placeholder bound, a failing model call
degrades to the error text; with an empty context the invocation fails
outward. -/
theorem C7_invocation_failure_boundary_witness :
    generate_response "plaintiff_lawyer" tmplEx.data ctxEx modelFailEx =
      some "Error generating response: model down" ∧
    generate_response "plaintiff_lawyer" tmplEx.data [] modelFailEx = none := by
  constructor
  · have h := (C7_invocation_failure_boundary "plaintiff_lawyer" tmplEx.data ctxEx
      modelFailEx rfl).2 "Facts: Some facts".data rfl
    rw [h]
    rfl
  · exact (C7_invocation_failure_boundary "plaintiff_lawyer" tmplEx.data []
      modelFailEx rfl).1.mpr ⟨"facts", by decide, rfl⟩

/-- C8: evaluating the endpoint handlers at the failing inputs: a stored
case without extracted facts (or without a prior simulation) is answered
with HTTP status 500 — the precondition `HTTPException(400, ...)` raised
inside the `try` block is swallowed by the blanket `except Exception`
and re-wrapped — making it indistinguishable by status from a generic
processing failure, while only the not-found case keeps its own 404. -/
theorem C8_precondition_swallowed_eval :
    simulate_handler (some { hasFacts := false, data := cdEx }) 2 pEx dEx jEx none =
      ApiOutcome.failure 500
        "Error running simulation: 400: Case must be processed before simulation" ∧
    simulate_handler (some { hasFacts := true, data := cdEx }) 2 pEx dEx jEx
        (some "disk full") =
      ApiOutcome.failure 500 "Error running simulation: disk full" ∧
    simulate_handler none 2 pEx dEx jEx none = ApiOutcome.failure 404 "Case not found" ∧
    audit_handler (some { hasSimulation := false, simHasVerdict := false }) =
      ApiOutcome.failure 500
        "Error auditing case: 400: Simulation must be run before audit" ∧
    audit_handler (some { hasSimulation := true, simHasVerdict := false }) =
      ApiOutcome.failure 500 "Error auditing case: \x27verdict\x27" ∧
    audit_handler none = ApiOutcome.failure 404 "Case not found" :=
  ⟨rfl, rfl, rfl, rfl, rfl, rfl⟩
